import Mathlib

/-!
# Donation distribution and contribution ledger — verification development

Shallow embedding of the donation subsystem of the musaffo-app repository.

The repository contains the React client in full; the core API backend
("musaffo-core-api": FastAPI over Firestore) is present only as a README
listing its endpoints. Consequently:

* Client-side code is translated directly from the source:
  `simulateDonation` (App component, src/unnamed/part_000 lines 379-441),
  the per-project PATCH loop (lines 400-410), the success continuation
  that commits the user state and localStorage (lines 416-427), the
  donation modal guard, and the `FundView` contribution display.
* The server-side endpoints (`POST /api/donations`,
  `POST /api/donations/donor/{userId}/distribute`,
  `GET /api/donations/donor/{userId}`, `PATCH /api/projects/{id}`) are
  modelled from the specification, since their implementation is not in
  the repository; each such definition carries a doc comment starting
  with `Modelled from the spec:`.

Amounts are integers (smallest currency unit). JavaScript
`Math.floor(a / n)` on numbers is floor division, embedded as `Int.fdiv`.
-/

namespace Musaffo

/-- Project status, from the union type in src/frontend/src/types.ts
(`'active' | 'completed' | 'voting'`). -/
inductive ProjStatus where
  | active
  | completed
  | voting
deriving DecidableEq

/-- The `p.status === 'active'` test used by the client filters. -/
def ProjStatus.isActive : ProjStatus → Bool
  | .active => true
  | _ => false

/-- Fundraising project, from `FundProject` in src/frontend/src/types.ts,
restricted to the ledger-relevant fields (title, description, image and
vote fields are display-only and omitted). -/
structure FundProject where
  id : String
  targetAmount : Int
  currentAmount : Int
  status : ProjStatus
deriving DecidableEq

/-- Client user state, from `UserState` in src/frontend/src/types.ts,
restricted to the donation-relevant fields. `totalDonated` is optional in
the source; `projectContributions` is an object mapping project id to
amount, embedded as an association list. -/
structure UserState where
  isContributor : Bool
  contributionAmount : Int
  totalDonated : Option Int
  projectContributions : List (String × Int)
  name : String
  status : String
deriving DecidableEq

/-- The two localStorage keys written by the donation flow
(`hasDonated`, `donationAmount`; src/unnamed/part_000 lines 426-427). -/
structure LocalStg where
  hasDonated : Option String
  donationAmount : Option String
deriving DecidableEq

/-- A stored donation record.
Modelled from the spec: §3 Donation (the Donation collection lives in the
absent backend; the client posts `{userId, amount, currency, status}` per
`donationsApi.create` in src/frontend/src/services/api.ts). -/
structure Donation where
  donorId : String
  amount : Int
  currency : String
  status : String
deriving DecidableEq

/-- The backend store.
Modelled from the spec: §6 persisted state layout — one collection each
for donations and projects, plus the per-donor contribution mapping read
back by `GET /api/donations/donor/{userId}`. The backend service itself is
not in the repository. -/
structure Store where
  donations : List Donation
  projects : List FundProject
  contribs : List (String × List (String × Int))
deriving DecidableEq

/-- Shape of the donor-info response consumed by the client
(`{isContributor, totalDonated, projectContributions}`, spec §6; the
client treats `totalDonated` and `projectContributions` as possibly
absent, src/unnamed/part_000 lines 419-422). -/
structure DonorInfoR where
  isContributor : Bool
  totalDonated : Option Int
  projectContributions : Option (List (String × Int))

/-- Error taxonomy of the backend, from spec §7. Only `ValidationError`
is exercised by the modelled endpoints; no error kind named
`PartialDistributionError` occurs anywhere in the repository source. -/
inductive ApiError where
  | validation
  | notFound
  | network
deriving DecidableEq

/-! ## Modelled backend endpoints -/

/-- Association-list lookup (keys are unique per spec §3). -/
def assocFind {α : Type} (key : String) : List (String × α) → Option α
  | [] => none
  | (k, v) :: rest => if k = key then some v else assocFind key rest

/-- Add `delta` to the entry at `key`, creating it if absent. -/
def addToAssoc (key : String) (delta : Int) : List (String × Int) → List (String × Int)
  | [] => [(key, delta)]
  | (k, v) :: rest =>
      if k = key then (k, v + delta) :: rest else (k, v) :: addToAssoc key delta rest

/-- Modelled from the spec: §4.1 `createDonation(donorId, amount, currency)`
— fails with `ValidationError` if `amount ≤ 0`, otherwise appends the
donation (append-only collection). This is the handler of
`POST /api/donations`, absent from the repository. -/
def createDonation (donorId : String) (amount : Int) (currency status : String)
    (s : Store) : Except ApiError Store :=
  if amount ≤ 0 then .error .validation
  else .ok { s with donations := s.donations ++ [⟨donorId, amount, currency, status⟩] }

/-- Modelled from the spec: §4.2 Distribution Engine — each project gets
`floor(amount / count)` and the remainder `amount - share * count` is
assigned to the first project of the given id list, so the shares sum to
`amount` exactly. The engine implementation is absent from the
repository (the spec flags that the observed client-side distribution
drops the remainder instead; that client code is embedded separately in
`updateActiveProjects`). -/
def distributionEngine (amount : Int) (projectIds : List String) : List (String × Int) :=
  match projectIds with
  | [] => []
  | first :: rest =>
      let count : Int := (first :: rest).length
      let share := Int.fdiv amount count
      let remainder := amount - share * count
      (first, share + remainder) :: rest.map (fun pid => (pid, share))

/-- Modelled from the spec: §4.1 `upsertDonorContribution(donorId,
projectId, delta)` — adds `delta` to `projectContributions[projectId]` of
the donor, creating the account entry if absent. -/
def upsertDonorContribution (donorId pid : String) (delta : Int) :
    List (String × List (String × Int)) → List (String × List (String × Int))
  | [] => [(donorId, [(pid, delta)])]
  | (d, m) :: rest =>
      if d = donorId then (d, addToAssoc pid delta m) :: rest
      else (d, m) :: upsertDonorContribution donorId pid delta rest

/-- Modelled from the spec: §4.3 step 5 restricted to the observed split
design of §6 — the handler of `POST /api/donations/donor/{userId}/distribute`
computes the allocation over the caller-supplied `projectIds` and applies
each `(projectId, share)` with `share > 0` to the donor contribution
mapping. Project `currentAmount` totals are caller-driven in the observed
design (the client PATCHes them; spec §6), so this endpoint does not touch
the project collection. -/
def distributeToProjects (donorId : String) (donationAmount : Int)
    (projectIds : List String) (s : Store) : Store :=
  (distributionEngine donationAmount projectIds).foldl
    (fun st alloc =>
      if 0 < alloc.2 then
        { st with contribs := upsertDonorContribution donorId alloc.1 alloc.2 st.contribs }
      else st) s

/-- The value actually added to the contribution mapping for one
allocation entry: the share when positive, nothing otherwise (spec §4.3
step 5 applies only pairs with `share > 0`). -/
def posShare (v : Int) : Int := if 0 < v then v else 0

/-- Modelled from the spec: §6 `PATCH /api/projects/{id}` with body
`{currentAmount}` — sets the stored `currentAmount` of that project to the
pushed value (the handler is absent from the repository; the client-side
caller is `projectsApi.update` in src/frontend/src/services/api.ts). -/
def patchProject (pid : String) (newAmount : Int) (s : Store) : Store :=
  { s with projects :=
      s.projects.map (fun q =>
        if q.id = pid then { q with currentAmount := newAmount } else q) }

/-- Sum of the stored donation amounts of one donor. -/
def donorTotal (s : Store) (donorId : String) : Int :=
  ((s.donations.filter (fun d => d.donorId = donorId)).map (fun d => d.amount)).sum

/-- The donor contribution mapping of one donor (empty if absent). -/
def donorContribs (s : Store) (donorId : String) : List (String × Int) :=
  (assocFind donorId s.contribs).getD []

/-- Sum of the values of a contribution mapping. -/
def assocSum (m : List (String × Int)) : Int := (m.map Prod.snd).sum

/-- Sum of the per-project contribution values of one donor. -/
def contribSum (s : Store) (donorId : String) : Int := assocSum (donorContribs s donorId)

/-- Modelled from the spec: §4.1 `getDonorAccount` / §6
`GET /api/donations/donor/{userId}` — `totalDonated` is the sum of that
donor historical Donation amounts (spec §3: the DonorAccount must be
reconstructable from the Donation history), `projectContributions` is the
maintained per-project mapping. -/
def getDonorAccount (s : Store) (donorId : String) : DonorInfoR :=
  { isContributor := decide (0 < donorTotal s donorId)
    totalDonated := some (donorTotal s donorId)
    projectContributions := some (donorContribs s donorId) }

/-! ## Client-side embedding (translated from the source) -/

/-- `const userId = user.name || 'guest'` (src/unnamed/part_000 line 384):
the empty string is falsy in JavaScript. -/
def effectiveUserId (name : String) : String :=
  if name = "" then "guest" else name

/-- JavaScript `x || fallback` on an optional number: `0` and absence are
falsy, every other number is truthy. -/
def jsOrElse (o : Option Int) (fallback : Int) : Int :=
  match o with
  | none => fallback
  | some n => if n = 0 then fallback else n

/-- The success continuation of `simulateDonation` (src/unnamed/part_000
lines 416-427): commits the client user state — unconditionally marking
the user a contributor with status `Eco-Protector` — and writes the
`hasDonated` / `donationAmount` localStorage keys, falling back to the
current donation amount whenever the returned `totalDonated` is `0` or
absent. -/
def applyDonorInfo (amount : Int) (donorInfo : DonorInfoR) (u : UserState) :
    UserState × LocalStg :=
  let td := jsOrElse donorInfo.totalDonated amount
  ({ u with
      isContributor := true
      contributionAmount := td
      totalDonated := some td
      status := "Eco-Protector"
      projectContributions := donorInfo.projectContributions.getD [] },
   { hasDonated := some ("true")
     donationAmount := some (toString td) })

/-- External-failure pattern of one `simulateDonation` run: which awaited
API calls throw. The guarded per-project PATCH failures are a function of
the project id (src/unnamed/part_000 lines 403-409). -/
structure Env where
  createFails : Bool
  distributeFails : Bool
  updateFails : String → Bool
  donorInfoFails : Bool

/-- The environment in which every API call succeeds. -/
def honestEnv : Env :=
  { createFails := false
    distributeFails := false
    updateFails := fun _ => false
    donorInfoFails := false }

/-- Client state threaded through the donation flow: the React `user`
state, the client copy of the project list, and the two localStorage
keys. -/
structure ClientState where
  user : UserState
  projects : List FundProject
  ls : LocalStg
deriving DecidableEq

/-- The toast the user ends up seeing: `toast_thank_you` with type
`success` (src/unnamed/part_000 line 435) or the generic
`error_donation_failed` with type `info` from the catch branch
(line 439). -/
inductive ToastKind where
  | thankYou
  | donationFailed
deriving DecidableEq

/-- Outcome of one `simulateDonation` run: final client state, final
store, final toast, and the project ids whose PATCH failed (these are
only logged via `console.error`, line 408). -/
structure SimOutcome where
  client : ClientState
  store : Store
  toast : ToastKind
  failedLog : List String
deriving DecidableEq

/-- The catch branch of `simulateDonation` (src/unnamed/part_000 lines
437-440): the client state and localStorage are left untouched and the
generic failure toast is shown; server-side effects that already happened
remain in the store. -/
def catchOutcome (c : ClientState) (s : Store) (log : List String) : SimOutcome :=
  { client := c, store := s, toast := .donationFailed, failedLog := log }

/-- The per-project update loop of `simulateDonation` (src/unnamed/part_000
lines 402-410): for each active project, PATCH its `currentAmount` to the
client local copy plus the share; each iteration has its own try/catch, so
a failing PATCH is only logged and the loop continues. -/
def updateActiveProjects (env : Env) (share : Int) :
    List FundProject → Store → Store × List String
  | [], s => (s, [])
  | p :: rest, s =>
      if env.updateFails p.id then
        let res := updateActiveProjects env share rest s
        (res.1, p.id :: res.2)
      else
        updateActiveProjects env share rest (patchProject p.id (p.currentAmount + share) s)

/-- The `projects.filter(p => p.status === 'active')` of line 393. -/
def activesOf (projects : List FundProject) : List FundProject :=
  projects.filter (fun p => p.status.isActive)

/-- Total collected amount over a project list (sum of `currentAmount`). -/
def projectsTotal (l : List FundProject) : Int :=
  (l.map (fun p => p.currentAmount)).sum

/-- The tail of `simulateDonation` after the distribution block
(src/unnamed/part_000 lines 413-436): read the donor info, commit the
user state and localStorage via `applyDonorInfo`, refetch the project
list from the server, and show the success toast. A failing donor-info
read falls to the catch branch. -/
def finishDonation (env : Env) (amount : Int) (userId : String) (c : ClientState)
    (s : Store) (log : List String) : SimOutcome :=
  if env.donorInfoFails then catchOutcome c s log
  else
    let donorInfo := getDonorAccount s userId
    let committed := applyDonorInfo amount donorInfo c.user
    { client := { user := committed.1, projects := s.projects, ls := committed.2 }
      store := s
      toast := .thankYou
      failedLog := log }

/-- `simulateDonation` (src/unnamed/part_000 lines 379-441): create the
donation, distribute across the client list of active projects when that
list is non-empty (server call, then the per-project PATCH loop with
`amountPerProject = Math.floor(amount / activeProjectIds.length)`), read
the donor info back and commit it. Any throw outside the guarded PATCH
loop falls to the catch branch. -/
def simulateDonation (env : Env) (amount : Int) (c : ClientState) (s : Store) : SimOutcome :=
  let userId := effectiveUserId c.user.name
  if env.createFails then catchOutcome c s []
  else
    match createDonation userId amount ("UZS") ("completed") s with
    | .error _ => catchOutcome c s []
    | .ok s1 =>
        let activeProjects := activesOf c.projects
        let activeIds := activeProjects.map (fun p => p.id)
        if 0 < activeIds.length then
          if env.distributeFails then catchOutcome c s1 []
          else
            let s2 := distributeToProjects userId amount activeIds s1
            let share := Int.fdiv amount (activeIds.length : Int)
            let applied := updateActiveProjects env share activeProjects s2
            finishDonation env amount userId c applied.1 applied.2
        else finishDonation env amount userId c s1 []

/-- A sequence of donation runs, threading client state and store. -/
def runDonations (env : Env) (amounts : List Int) (c : ClientState) (s : Store) :
    ClientState × Store :=
  match amounts with
  | [] => (c, s)
  | a :: rest =>
      let o := simulateDonation env a c s
      runDonations env rest o.client o.store

/-- The guard of the donation modal
(src/frontend/src/components/DonationModal.tsx lines 21-22): `if
(!amount) return;` — only the falsy amount `0` is blocked; a negative
amount passes the guard and is submitted. -/
def handleDonateProceeds (amount : Int) : Bool :=
  !(amount == 0)

/-- The contribution figure rendered per project card by `FundView`
(src/frontend/src/views/FundView.tsx lines 132-136): the user total
donation split by floor division across the active projects. -/
def userContribution (totalDonated : Option Int) (projects : List FundProject) : Int :=
  let activeProjectsCount := (activesOf projects).length
  match totalDonated with
  | some td =>
      if td ≠ 0 ∧ 0 < activeProjectsCount then Int.fdiv td (activeProjectsCount : Int)
      else 0
  | none => 0

/-! ## The lost-update race model (claim about concurrency)

The client pushes each project total with
`projectsApi.update(project.id, { currentAmount: project.currentAmount +
amountPerProject })` (src/unnamed/part_000 lines 404-406): the PATCHed
value is computed from the client local copy of the project — a
read-modify-write, not a store-side atomic increment. Two concurrent
donation flows against one active project are embedded as an explicit
interleaving of their read (taking the local copy from the store) and
write (PATCHing copy + `Math.floor(a / 1)`) events. -/

/-- The value one donation flow PATCHes for the single active project:
its local copy plus `Math.floor(amount / 1)` (lines 401 and 405 with one
active project). -/
def patchValue (localCopy amount : Int) : Int :=
  localCopy + Int.fdiv amount 1

/-- Shared store plus the in-flight local copies of two concurrent
donation flows. -/
structure RaceState where
  storeAmount : Int
  copyA : Option Int
  copyB : Option Int
deriving DecidableEq

/-- Events of the two in-flight flows: each reads the project total into
its local copy, then writes its PATCH value back. -/
inductive RaceEvent where
  | readA
  | readB
  | writeA
  | writeB
deriving DecidableEq

/-- One interleaving step: a read snapshots the store into the local
copy; a write PATCHes the store to `patchValue copy a` (a write before
its read never occurs in a schedule of the client code and is a no-op). -/
def raceStep (a : Int) (s : RaceState) : RaceEvent → RaceState
  | .readA => { s with copyA := some s.storeAmount }
  | .readB => { s with copyB := some s.storeAmount }
  | .writeA =>
      match s.copyA with
      | some c => { s with storeAmount := patchValue c a, copyA := none }
      | none => s
  | .writeB =>
      match s.copyB with
      | some c => { s with storeAmount := patchValue c a, copyB := none }
      | none => s

/-- Run a schedule of read/write events. -/
def runSchedule (a : Int) (events : List RaceEvent) (s : RaceState) : RaceState :=
  events.foldl (raceStep a) s

/-- The non-overlapping schedule: the second flow reads only after the
first has written. -/
def seqSchedule : List RaceEvent := [.readA, .writeA, .readB, .writeB]

/-- The overlapping schedule: both flows read the project total before
either writes. -/
def racySchedule : List RaceEvent := [.readA, .readB, .writeA, .writeB]

/-! ## Concrete worlds used by counterexamples and witnesses -/

/-- Three active projects with ids P1, P2, P3 and zero collected. -/
def exProjects : List FundProject :=
  [⟨"P1", 1000000, 0, .active⟩, ⟨"P2", 1000000, 0, .active⟩, ⟨"P3", 1000000, 0, .active⟩]

/-- A fresh store holding the three active projects. -/
def exStore : Store := ⟨[], exProjects, []⟩

/-- A fresh user with no name set, so the donation flow uses the donor id
`guest`. -/
def exUser : UserState := ⟨false, 0, none, [], "", "Newcomer"⟩

/-- A fresh client whose project list agrees with `exStore`. -/
def exClient : ClientState := ⟨exUser, exProjects, ⟨none, none⟩⟩

/-- A store whose only project is not active. -/
def exStoreNoActive : Store := ⟨[], [⟨"P3", 1000000, 5, .voting⟩], []⟩

/-- A fresh client whose project list agrees with `exStoreNoActive`. -/
def exClientNoActive : ClientState := ⟨exUser, exStoreNoActive.projects, ⟨none, none⟩⟩

/-- An environment where exactly the PATCH of project P2 fails. -/
def exEnvFailP2 : Env := { honestEnv with updateFails := fun pid => pid == "P2" }

/-- The environment where only the donor-info read fails. -/
def exEnvDonorInfoFails : Env := { honestEnv with donorInfoFails := true }

/-! ## Preservation lemmas: which collections each step touches -/

lemma patchProject_donations (pid : String) (v : Int) (s : Store) :
    (patchProject pid v s).donations = s.donations := rfl

lemma patchProject_contribs (pid : String) (v : Int) (s : Store) :
    (patchProject pid v s).contribs = s.contribs := rfl

lemma updateActiveProjects_donations (env : Env) (share : Int) :
    ∀ (ps : List FundProject) (s : Store),
      (updateActiveProjects env share ps s).1.donations = s.donations := by
  intro ps
  induction ps with
  | nil => intro s; rfl
  | cons p rest ih =>
      intro s
      unfold updateActiveProjects
      cases h : env.updateFails p.id <;> simp [h, ih, patchProject_donations]

lemma updateActiveProjects_contribs (env : Env) (share : Int) :
    ∀ (ps : List FundProject) (s : Store),
      (updateActiveProjects env share ps s).1.contribs = s.contribs := by
  intro ps
  induction ps with
  | nil => intro s; rfl
  | cons p rest ih =>
      intro s
      unfold updateActiveProjects
      cases h : env.updateFails p.id <;> simp [h, ih, patchProject_contribs]

lemma updateActiveProjects_log (env : Env) (share : Int) :
    ∀ (ps : List FundProject) (s : Store),
      (updateActiveProjects env share ps s).2
        = (ps.filter (fun p => env.updateFails p.id)).map (fun p => p.id) := by
  intro ps
  induction ps with
  | nil => intro s; rfl
  | cons p rest ih =>
      intro s
      unfold updateActiveProjects
      cases h : env.updateFails p.id <;> simp [h, ih, List.filter_cons]

lemma distribFold_donations (u : String) :
    ∀ (l : List (String × Int)) (s : Store),
      (l.foldl (fun st alloc =>
          if 0 < alloc.2 then
            { st with contribs := upsertDonorContribution u alloc.1 alloc.2 st.contribs }
          else st) s).donations = s.donations := by
  intro l
  induction l with
  | nil => intro s; rfl
  | cons a rest ih =>
      intro s
      simp only [List.foldl_cons]
      rw [ih]
      split <;> rfl

lemma distribFold_projects (u : String) :
    ∀ (l : List (String × Int)) (s : Store),
      (l.foldl (fun st alloc =>
          if 0 < alloc.2 then
            { st with contribs := upsertDonorContribution u alloc.1 alloc.2 st.contribs }
          else st) s).projects = s.projects := by
  intro l
  induction l with
  | nil => intro s; rfl
  | cons a rest ih =>
      intro s
      simp only [List.foldl_cons]
      rw [ih]
      split <;> rfl

lemma distributeToProjects_donations (u : String) (a : Int) (ids : List String) (s : Store) :
    (distributeToProjects u a ids s).donations = s.donations := by
  unfold distributeToProjects
  exact distribFold_donations u _ s

lemma distributeToProjects_projects (u : String) (a : Int) (ids : List String) (s : Store) :
    (distributeToProjects u a ids s).projects = s.projects := by
  unfold distributeToProjects
  exact distribFold_projects u _ s

lemma finishDonation_store (env : Env) (amount : Int) (userId : String) (c : ClientState)
    (s : Store) (log : List String) :
    (finishDonation env amount userId c s log).store = s := by
  unfold finishDonation
  cases h : env.donorInfoFails <;> simp [h, catchOutcome]

/-! ## Contribution-sum lemmas for the modelled store -/

lemma assocSum_addToAssoc (key : String) (delta : Int) :
    ∀ (m : List (String × Int)), assocSum (addToAssoc key delta m) = assocSum m + delta := by
  intro m
  induction m with
  | nil => simp [addToAssoc, assocSum]
  | cons kv rest ih =>
      by_cases h : kv.1 = key
      · simp [addToAssoc, h, assocSum]
        ring
      · simp [addToAssoc, h, assocSum] at ih ⊢
        omega

lemma assocFind_upsert_self (donorId pid : String) (delta : Int) :
    ∀ (cs : List (String × List (String × Int))),
      assocFind donorId (upsertDonorContribution donorId pid delta cs)
        = some (addToAssoc pid delta ((assocFind donorId cs).getD [])) := by
  intro cs
  induction cs with
  | nil => simp [upsertDonorContribution, assocFind, addToAssoc]
  | cons dm rest ih =>
      by_cases h : dm.1 = donorId
      · simp [upsertDonorContribution, h, assocFind]
      · simp [upsertDonorContribution, h, assocFind, ih]

lemma contribSum_upsert (donorId pid : String) (delta : Int) (s : Store) :
    contribSum { s with contribs := upsertDonorContribution donorId pid delta s.contribs }
        donorId = contribSum s donorId + delta := by
  simp [contribSum, donorContribs, assocFind_upsert_self, assocSum_addToAssoc]

lemma distribFold_contribSum (u : String) :
    ∀ (l : List (String × Int)) (s : Store),
      contribSum (l.foldl (fun st alloc =>
          if 0 < alloc.2 then
            { st with contribs := upsertDonorContribution u alloc.1 alloc.2 st.contribs }
          else st) s) u
        = contribSum s u + (l.map (fun a => posShare a.2)).sum := by
  intro l
  induction l with
  | nil => intro s; simp
  | cons a rest ih =>
      intro s
      simp only [List.foldl_cons, List.map_cons, List.sum_cons]
      by_cases h : 0 < a.2
      · rw [if_pos h, ih, contribSum_upsert]
        simp [posShare, h]
        ring
      · rw [if_neg h, ih]
        simp [posShare, h]

lemma contribSum_ext {s t : Store} (u : String) (h : s.contribs = t.contribs) :
    contribSum s u = contribSum t u := by
  simp [contribSum, donorContribs, h]

lemma donorTotal_ext {s t : Store} (u : String) (h : s.donations = t.donations) :
    donorTotal s u = donorTotal t u := by
  simp [donorTotal, h]

lemma donorTotal_append (s : Store) (d : Donation) (u : String) :
    donorTotal { s with donations := s.donations ++ [d] } u
      = donorTotal s u + (if d.donorId = u then d.amount else 0) := by
  by_cases h : d.donorId = u <;> simp [donorTotal, List.filter_append, h]

lemma posShare_of_nonneg {v : Int} (h : 0 ≤ v) : posShare v = v := by
  unfold posShare
  rcases lt_or_eq_of_le h with h1 | h1
  · rw [if_pos h1]
  · rw [← h1]
    simp


/-- Zeta-reduced form of the engine on a non-empty id list. -/
lemma distributionEngine_cons (amount : Int) (x : String) (xs : List String) :
    distributionEngine amount (x :: xs)
      = (x, Int.fdiv amount ((x :: xs).length : Int)
            + (amount - Int.fdiv amount ((x :: xs).length : Int) * ((x :: xs).length : Int)))
        :: xs.map (fun pid => (pid, Int.fdiv amount ((x :: xs).length : Int))) := rfl

lemma sum_const_int (v : Int) :
    ∀ (l : List String), (l.map (fun _ => v)).sum = (l.length : Int) * v := by
  intro l
  induction l with
  | nil => simp
  | cons a t ih =>
      simp only [List.map_cons, List.sum_cons, List.length_cons, ih]
      push_cast
      ring

/-- The modelled engine conserves the amount: the positive shares it
emits over a non-empty id list sum to exactly the donation amount. -/
lemma engine_posShare_sum (amount : Int) (h0 : 0 < amount) :
    ∀ (ids : List String), ids ≠ [] →
      ((distributionEngine amount ids).map (fun a => posShare a.2)).sum = amount := by
  intro ids hne
  match ids with
  | [] => exact absurd rfl hne
  | x :: xs =>
      rw [distributionEngine_cons]
      simp only [List.map_cons, List.sum_cons, List.map_map]
      set n : Int := ((x :: xs).length : Int) with hn
      have hnpos : 0 < n := by
        rw [hn]
        exact_mod_cast List.length_pos.mpr (List.cons_ne_nil x xs)
      have hshare : 0 ≤ Int.fdiv amount n := Int.fdiv_nonneg h0.le hnpos.le
      have hrem : 0 ≤ amount - Int.fdiv amount n * n := by
        rw [Int.fdiv_eq_ediv amount hnpos.le]
        have hdm := Int.ediv_add_emod amount n
        have hmn := Int.emod_nonneg amount (ne_of_gt hnpos)
        have hcm : amount / n * n = n * (amount / n) := mul_comm _ _
        omega
      rw [posShare_of_nonneg (by linarith)]
      have hconst : ((fun (a : String × Int) => posShare a.2)
            ∘ fun (pid : String) => (pid, Int.fdiv amount n))
          = fun (pid : String) => Int.fdiv amount n := by
        funext pid
        simp only [Function.comp_apply]
        exact posShare_of_nonneg hshare
      rw [hconst, sum_const_int]
      have hlen2 : n = (xs.length : Int) + 1 := by
        rw [hn]
        push_cast [List.length_cons]
        ring
      rw [hlen2]
      ring

/-- The loop over active projects does not change contribution sums. -/
lemma contribSum_after_loop (env : Env) (share : Int) (ps : List FundProject) (s : Store)
    (u : String) :
    contribSum (updateActiveProjects env share ps s).1 u = contribSum s u :=
  contribSum_ext u (updateActiveProjects_contribs env share ps s)

/-- Contribution-sum effect of the modelled distribute endpoint. -/
lemma contribSum_distribute (u : String) (a : Int) (ids : List String) (s : Store) :
    contribSum (distributeToProjects u a ids s) u
      = contribSum s u + ((distributionEngine a ids).map (fun al => posShare al.2)).sum := by
  unfold distributeToProjects
  exact distribFold_contribSum u _ s

/-- Reduced form of the donation flow once the create call has gone
through: the store explicitly carries the appended donation, and the
remaining control flow is the active-list guard, the distribute call, the
PATCH loop and the finishing read. -/
lemma simulateDonation_ok_shape (env : Env) (amount : Int) (c : ClientState) (s : Store)
    (hc : env.createFails = false) (h0 : 0 < amount) :
    simulateDonation env amount c s =
      if 0 < ((activesOf c.projects).map (fun p => p.id)).length then
        if env.distributeFails then
          catchOutcome c { s with donations := s.donations
            ++ [⟨effectiveUserId c.user.name, amount, "UZS", "completed"⟩] } []
        else
          finishDonation env amount (effectiveUserId c.user.name) c
            (updateActiveProjects env
              (Int.fdiv amount (((activesOf c.projects).map (fun p => p.id)).length : Int))
              (activesOf c.projects)
              (distributeToProjects (effectiveUserId c.user.name) amount
                ((activesOf c.projects).map (fun p => p.id))
                { s with donations := s.donations
                  ++ [⟨effectiveUserId c.user.name, amount, "UZS", "completed"⟩] })).1
            (updateActiveProjects env
              (Int.fdiv amount (((activesOf c.projects).map (fun p => p.id)).length : Int))
              (activesOf c.projects)
              (distributeToProjects (effectiveUserId c.user.name) amount
                ((activesOf c.projects).map (fun p => p.id))
                { s with donations := s.donations
                  ++ [⟨effectiveUserId c.user.name, amount, "UZS", "completed"⟩] })).2
      else
        finishDonation env amount (effectiveUserId c.user.name) c
          { s with donations := s.donations
            ++ [⟨effectiveUserId c.user.name, amount, "UZS", "completed"⟩] } [] := by
  have hnle : ¬ amount ≤ 0 := not_le.mpr h0
  have hcd : createDonation (effectiveUserId c.user.name) amount ("UZS") ("completed") s
      = Except.ok { s with donations := s.donations
          ++ [⟨effectiveUserId c.user.name, amount, "UZS", "completed"⟩] } := by
    simp [createDonation, hnle]
  unfold simulateDonation
  rw [hc]
  simp only [Bool.false_eq_true, if_false, hcd]

/-- After a donation flow whose create call goes through (no network
failure, positive amount), the store holds exactly one new donation
record for the effective donor id with the full amount, whatever else
happened downstream. -/
lemma simulateDonation_store_donations (env : Env) (amount : Int) (c : ClientState) (s : Store)
    (hc : env.createFails = false) (h0 : 0 < amount) :
    (simulateDonation env amount c s).store.donations
      = s.donations ++ [⟨effectiveUserId c.user.name, amount, "UZS", "completed"⟩] := by
  have hnle : ¬ amount ≤ 0 := not_le.mpr h0
  unfold simulateDonation
  rw [hc]
  simp only [Bool.false_eq_true, if_false, createDonation, if_neg hnle]
  split
  · split
    · simp [catchOutcome]
    · rw [finishDonation_store, updateActiveProjects_donations, distributeToProjects_donations]
  · rw [finishDonation_store]

/-- The donation flow never changes the client user name. -/
lemma simulateDonation_name (env : Env) (amount : Int) (c : ClientState) (s : Store) :
    (simulateDonation env amount c s).client.user.name = c.user.name := by
  unfold simulateDonation
  cases hc : env.createFails
  · cases hcd : createDonation (effectiveUserId c.user.name) amount ("UZS") ("completed") s with
    | error e => simp [hcd, catchOutcome]
    | ok s1 =>
        simp only [Bool.false_eq_true, if_false, hcd]
        split
        · split
          · simp [catchOutcome]
          · unfold finishDonation
            split
            · simp [catchOutcome]
            · simp [applyDonorInfo]
        · unfold finishDonation
          split
          · simp [catchOutcome]
          · simp [applyDonorInfo]
  · simp [catchOutcome]

/-- One successful create increases the stored donation total of the
effective donor by exactly the amount. -/
lemma simulateDonation_donorTotal (env : Env) (amount : Int) (c : ClientState) (s : Store)
    (hc : env.createFails = false) (h0 : 0 < amount) :
    donorTotal (simulateDonation env amount c s).store (effectiveUserId c.user.name)
      = donorTotal s (effectiveUserId c.user.name) + amount := by
  have hd := simulateDonation_store_donations env amount c s hc h0
  have := donorTotal_ext (t := { s with donations :=
      s.donations ++ [⟨effectiveUserId c.user.name, amount, "UZS", "completed"⟩] })
    (effectiveUserId c.user.name) hd
  rw [this, donorTotal_append]
  simp

/-- One clean donation over a non-empty client active list increases the
stored contribution sum of the effective donor by exactly the amount
(the modelled engine conserves the amount and only positive shares are
applied). -/
lemma simulateDonation_contribSum (env : Env) (amount : Int) (c : ClientState) (s : Store)
    (hc : env.createFails = false) (hdf : env.distributeFails = false) (h0 : 0 < amount)
    (hact : activesOf c.projects ≠ []) :
    contribSum (simulateDonation env amount c s).store (effectiveUserId c.user.name)
      = contribSum s (effectiveUserId c.user.name) + amount := by
  have hlen : 0 < ((activesOf c.projects).map (fun p => p.id)).length := by
    simpa [List.length_pos] using hact
  have hidsne : (activesOf c.projects).map (fun p => p.id) ≠ [] := by
    simpa [← List.length_pos] using hlen
  rw [simulateDonation_ok_shape env amount c s hc h0, if_pos hlen, if_neg (by simp [hdf]),
    finishDonation_store, contribSum_after_loop, contribSum_distribute,
    engine_posShare_sum amount h0 _ hidsne]
  rfl

/-- C1, counterexample. Donating 10000 over the three active projects
P1, P2, P3 gives every project — the first included — an increment of
3333: the applied allocations sum to 9999, not 10000, so the remainder of
the floor division is dropped rather than assigned to the first project
in id order. -/
theorem allocation_drops_remainder_cex :
    ((simulateDonation honestEnv 10000 exClient exStore).store.projects.map
        (fun p => p.currentAmount) = [3333, 3333, 3333]) ∧
    (((simulateDonation honestEnv 10000 exClient exStore).store.projects.map
        (fun p => p.currentAmount)).sum = 9999 ∧ (9999 : Int) ≠ 10000) := by
  decide

/-- C3, counterexample. With zero active projects, the donation flow for
donor `guest` and amount 5000 leaves the donor account with
`totalDonated = 5000` but an empty contribution mapping summing to 0, so
the invariant `totalDonated = sum of projectContributions values` fails
after this fully-applied donation. -/
theorem invariant_fails_zero_actives_cex :
    donorTotal (simulateDonation honestEnv 5000 exClientNoActive exStoreNoActive).store
        ("guest") = 5000 ∧
    contribSum (simulateDonation honestEnv 5000 exClientNoActive exStoreNoActive).store
        ("guest") = 0 ∧
    (5000 : Int) ≠ 0 := by
  decide

/-- C6, counterexample. When the PATCH of project P2 fails while P1 and
P3 succeed, the donation flow still ends with the plain success toast:
the failed project id is only logged, and no error of any kind — in
particular no `PartialDistributionError` — is surfaced to the caller. -/
theorem partial_failure_reports_success_cex :
    (simulateDonation exEnvFailP2 10000 exClient exStore).toast = ToastKind.thankYou ∧
    (simulateDonation exEnvFailP2 10000 exClient exStore).failedLog = ["P2"] ∧
    ((simulateDonation exEnvFailP2 10000 exClient exStore).store.projects.map
        (fun p => p.currentAmount) = [3333, 0, 3333]) := by
  decide

/-- C8, counterexample. Two donations of 5000 each against one active
project starting at 0, interleaved so that both flows read the project
total before either writes, leave `currentAmount` at 5000 — not the
10000 = 2 * 5000 the claim requires: the read-modify-write PATCH loses an
update. -/
theorem lost_update_cex :
    (runSchedule 5000 racySchedule ⟨0, none, none⟩).storeAmount = 5000 ∧
    (5000 : Int) ≠ 0 + 2 * 5000 := by
  decide

/-- C8, amended. The client pushes each project total as a
read-modify-write PATCH computed from its local copy. When the two flows
do not overlap (the second reads after the first wrote), `currentAmount`
increases by 2 * a; but in the interleaving where both flows read before
either writes, it increases by only a — a lost update. -/
theorem patch_read_modify_write_race (c a : Int) :
    (runSchedule a seqSchedule ⟨c, none, none⟩).storeAmount = c + 2 * a ∧
    (runSchedule a racySchedule ⟨c, none, none⟩).storeAmount = c + a := by
  constructor
  · simp [runSchedule, seqSchedule, raceStep, patchValue, Int.fdiv_one]
    ring
  · simp [runSchedule, racySchedule, raceStep, patchValue, Int.fdiv_one]

/-- C5. A donation request with `amount ≤ 0` is rejected by the
validation of `createDonation` with `ValidationError`, and the whole
donation flow leaves the store, the client state and localStorage exactly
unchanged, ending in the failure toast: nothing is persisted. -/
theorem nonpositive_amount_rejected (env : Env) (amount : Int) (c : ClientState) (s : Store)
    (h : amount ≤ 0) :
    createDonation (effectiveUserId c.user.name) amount ("UZS") ("completed") s
        = .error ApiError.validation ∧
    (simulateDonation env amount c s).store = s ∧
    (simulateDonation env amount c s).client = c ∧
    (simulateDonation env amount c s).toast = ToastKind.donationFailed := by
  have hcreate : createDonation (effectiveUserId c.user.name) amount ("UZS") ("completed") s
      = .error ApiError.validation := by
    simp [createDonation, h]
  refine ⟨hcreate, ?_⟩
  unfold simulateDonation
  cases henv : env.createFails <;> simp [henv, hcreate, catchOutcome]

/-- C5, witness: the rejection at the concrete amount -5000 (which the
donation modal guard does not block, since only 0 is falsy). -/
theorem nonpositive_amount_rejected_witness :
    (-5000 : Int) ≤ 0 ∧
    (createDonation (effectiveUserId exClient.user.name) (-5000) ("UZS") ("completed") exStore
        = .error ApiError.validation ∧
      (simulateDonation honestEnv (-5000) exClient exStore).store = exStore ∧
      (simulateDonation honestEnv (-5000) exClient exStore).client = exClient ∧
      (simulateDonation honestEnv (-5000) exClient exStore).toast = ToastKind.donationFailed) :=
  ⟨by decide, nonpositive_amount_rejected honestEnv (-5000) exClient exStore (by decide)⟩

/-- C10. The success continuation of `simulateDonation` commits the
client state unconditionally as a contributor with status
`Eco-Protector` regardless of the returned donor data; and whenever the
returned `totalDonated` is 0 or absent, the recorded total — both in the
user state and in the persisted `donationAmount` key — falls back to just
the current donation amount. -/
theorem success_commit_fallback (amount : Int) (donorInfo : DonorInfoR) (u : UserState) :
    ((applyDonorInfo amount donorInfo u).1.isContributor = true ∧
      (applyDonorInfo amount donorInfo u).1.status = "Eco-Protector") ∧
    ((donorInfo.totalDonated = none ∨ donorInfo.totalDonated = some 0) →
      (applyDonorInfo amount donorInfo u).1.totalDonated = some amount ∧
      (applyDonorInfo amount donorInfo u).1.contributionAmount = amount ∧
      (applyDonorInfo amount donorInfo u).2.donationAmount = some (toString amount)) := by
  refine ⟨by simp [applyDonorInfo], ?_⟩
  rintro (h | h) <;> simp [applyDonorInfo, jsOrElse, h]

/-- C10, witness: a donor-info response carrying `totalDonated = 0` after
a donation of 5000 yields a committed total of exactly 5000. -/
theorem success_commit_fallback_witness :
    ((applyDonorInfo 5000 ⟨false, some 0, none⟩ exUser).1.isContributor = true ∧
      (applyDonorInfo 5000 ⟨false, some 0, none⟩ exUser).1.status = "Eco-Protector") ∧
    ((applyDonorInfo 5000 ⟨false, some 0, none⟩ exUser).1.totalDonated = some 5000 ∧
      (applyDonorInfo 5000 ⟨false, some 0, none⟩ exUser).1.contributionAmount = 5000 ∧
      (applyDonorInfo 5000 ⟨false, some 0, none⟩ exUser).2.donationAmount
        = some (toString (5000 : Int))) :=
  ⟨(success_commit_fallback 5000 ⟨false, some 0, none⟩ exUser).1,
   (success_commit_fallback 5000 ⟨false, some 0, none⟩ exUser).2 (Or.inr rfl)⟩

/-! ## Characterization of the per-project PATCH loop -/

lemma updateActiveProjects_cons_pos (env : Env) (share : Int) (p : FundProject)
    (rest : List FundProject) (s : Store) (hf : env.updateFails p.id = true) :
    updateActiveProjects env share (p :: rest) s
      = ((updateActiveProjects env share rest s).1,
         p.id :: (updateActiveProjects env share rest s).2) := by
  simp only [updateActiveProjects]
  rw [if_pos hf]

lemma updateActiveProjects_cons_neg (env : Env) (share : Int) (p : FundProject)
    (rest : List FundProject) (s : Store) (hf : env.updateFails p.id = false) :
    updateActiveProjects env share (p :: rest) s
      = updateActiveProjects env share rest (patchProject p.id (p.currentAmount + share) s) := by
  simp only [updateActiveProjects]
  rw [if_neg (by simp [hf])]

/-- Filtering keeps project ids duplicate-free. -/
lemma nodup_ids_filter (l : List FundProject) (pred : FundProject → Bool)
    (hnd : (l.map (fun p => p.id)).Nodup) :
    ((l.filter pred).map (fun p => p.id)).Nodup :=
  List.Nodup.sublist ((List.filter_sublist l).map (fun p => p.id)) hnd

/-- Over a list with duplicate-free ids, searching for the id of a member
with an extra id-predicate finds exactly that member, or nothing if the
predicate rejects it. -/
lemma find?_by_id (b : String → Bool) :
    ∀ (l : List FundProject), ((l.map (fun p => p.id)).Nodup) → ∀ (q : FundProject), q ∈ l →
      l.find? (fun p => p.id == q.id && b p.id) = if b q.id = true then some q else none := by
  intro l
  induction l with
  | nil =>
      intro _ q hq
      exact absurd hq (List.not_mem_nil q)
  | cons h t ih =>
      intro hnd q hq
      rw [List.map_cons, List.nodup_cons] at hnd
      obtain ⟨hnotin, hnd2⟩ := hnd
      rcases List.mem_cons.mp hq with rfl | hqt
      · by_cases hb : b q.id = true
        · rw [if_pos hb]
          apply List.find?_cons_of_pos
          simp [hb]
        · rw [if_neg hb]
          rw [List.find?_cons_of_neg _ (by simp [hb])]
          rw [List.find?_eq_none]
          intro x hx
          simp only [Bool.and_eq_true, beq_iff_eq, not_and]
          intro hxid
          exact absurd (hxid ▸ List.mem_map_of_mem (fun p => p.id) hx) hnotin
      · have hne : h.id ≠ q.id := by
          intro he
          exact hnotin (he ▸ List.mem_map_of_mem (fun p => p.id) hqt)
        rw [List.find?_cons_of_neg _ (by simp [hne])]
        exact ih hnd2 q hqt

/-- What the PATCH loop does to the stored project list: every project
whose id matches a loop item with a non-failing PATCH is set to that item
client copy plus the share; all other projects are untouched. -/
lemma updateActiveProjects_projects_char (env : Env) (share : Int) :
    ∀ (ps : List FundProject), ((ps.map (fun p => p.id)).Nodup) → ∀ (s : Store),
      (updateActiveProjects env share ps s).1.projects
        = s.projects.map (fun q =>
            match ps.find? (fun p => p.id == q.id && !env.updateFails p.id) with
            | some p => { q with currentAmount := p.currentAmount + share }
            | none => q) := by
  intro ps
  induction ps with
  | nil =>
      intro _ s
      simp [updateActiveProjects]
  | cons p rest ih =>
      intro hnd s
      rw [List.map_cons, List.nodup_cons] at hnd
      obtain ⟨hnotin, hnd2⟩ := hnd
      cases hf : env.updateFails p.id
      · rw [updateActiveProjects_cons_neg env share p rest s hf]
        rw [ih hnd2]
        rw [show (patchProject p.id (p.currentAmount + share) s).projects
            = s.projects.map (fun q => if q.id = p.id
                then { q with currentAmount := p.currentAmount + share } else q) from rfl]
        rw [List.map_map]
        apply List.map_congr_left
        intro q _
        simp only [Function.comp_apply]
        by_cases hq : q.id = p.id
        · rw [if_pos hq]
          have hnone : rest.find?
              (fun x => x.id == q.id && !env.updateFails x.id) = none := by
            rw [List.find?_eq_none]
            intro x hx
            simp only [Bool.and_eq_true, beq_iff_eq, not_and]
            intro hxid
            exact absurd ((hxid.trans hq) ▸ List.mem_map_of_mem (fun p => p.id) hx) hnotin
          have hpos : (p :: rest).find?
              (fun x => x.id == q.id && !env.updateFails x.id) = some p := by
            apply List.find?_cons_of_pos
            simp [hq, hf]
          rw [hpos]
          simp only [hnone]
        · rw [if_neg hq]
          rw [List.find?_cons_of_neg _ (by
            simp only [Bool.and_eq_true, beq_iff_eq, not_and]
            intro he
            exact absurd he.symm hq)]
      · rw [updateActiveProjects_cons_pos env share p rest s hf]
        simp only
        rw [ih hnd2 s]
        apply List.map_congr_left
        intro q _
        rw [List.find?_cons_of_neg _ (by simp [hf])]

lemma finishDonation_failedLog (env : Env) (amount : Int) (userId : String) (c : ClientState)
    (s : Store) (log : List String) :
    (finishDonation env amount userId c s log).failedLog = log := by
  unfold finishDonation
  cases h : env.donorInfoFails <;> simp [h, catchOutcome]

lemma finishDonation_toast_ok (env : Env) (amount : Int) (userId : String) (c : ClientState)
    (s : Store) (log : List String) (hdi : env.donorInfoFails = false) :
    (finishDonation env amount userId c s log).toast = ToastKind.thankYou := by
  unfold finishDonation
  rw [if_neg (by simp [hdi])]

/-- The stored project list after a donation flow that reaches the PATCH
loop: every client-side active project with a non-failing PATCH is set to
its client copy plus the floor share, everything else is untouched. -/
lemma simulateDonation_store_projects (env : Env) (amount : Int) (c : ClientState) (s : Store)
    (hc : env.createFails = false) (hdf : env.distributeFails = false) (h0 : 0 < amount)
    (hact : activesOf c.projects ≠ [])
    (hnd : ((activesOf c.projects).map (fun p => p.id)).Nodup) :
    (simulateDonation env amount c s).store.projects
      = s.projects.map (fun q =>
          match (activesOf c.projects).find?
              (fun p => p.id == q.id && !env.updateFails p.id) with
          | some p => { q with currentAmount := (p.currentAmount
              + Int.fdiv amount (((activesOf c.projects).map (fun p => p.id)).length : Int)) }
          | none => q) := by
  have hlen : 0 < ((activesOf c.projects).map (fun p => p.id)).length := by
    simpa [List.length_pos] using hact
  rw [simulateDonation_ok_shape env amount c s hc h0, if_pos hlen, if_neg (by simp [hdf]),
    finishDonation_store, updateActiveProjects_projects_char env _ _ hnd,
    distributeToProjects_projects]

/-- The stored record of one active project after a donation flow: left
alone exactly when its PATCH failed, otherwise set to the client copy
plus the floor share. -/
lemma simulateDonation_project_amount (env : Env) (amount : Int) (c : ClientState) (s : Store)
    (hc : env.createFails = false) (hdf : env.distributeFails = false) (h0 : 0 < amount)
    (hsync : c.projects = s.projects) (hnd : (s.projects.map (fun p => p.id)).Nodup)
    (p : FundProject) (hp : p ∈ s.projects) (hpa : p.status.isActive = true) :
    (simulateDonation env amount c s).store.projects.find? (fun q => q.id == p.id)
      = some (if env.updateFails p.id = true then p
          else { p with currentAmount := (p.currentAmount
            + Int.fdiv amount (((activesOf s.projects).map (fun p => p.id)).length : Int)) }) := by
  have hnds : ((activesOf s.projects).map (fun p => p.id)).Nodup :=
    nodup_ids_filter s.projects (fun p => p.status.isActive) hnd
  have hmem : p ∈ activesOf s.projects := List.mem_filter.mpr ⟨hp, hpa⟩
  have hactne : activesOf c.projects ≠ [] := by
    rw [hsync]
    exact List.ne_nil_of_mem hmem
  have hndf : ((activesOf c.projects).map (fun p => p.id)).Nodup := by
    rw [hsync]
    exact hnds
  rw [simulateDonation_store_projects env amount c s hc hdf h0 hactne hndf, hsync]
  rw [List.find?_map]
  have hcomp : ((fun q : FundProject => q.id == p.id) ∘ (fun q : FundProject =>
      match (activesOf s.projects).find?
          (fun x => x.id == q.id && !env.updateFails x.id) with
      | some x => { q with currentAmount := (x.currentAmount
          + Int.fdiv amount (((activesOf s.projects).map (fun p => p.id)).length : Int)) }
      | none => q)) = fun q : FundProject => q.id == p.id := by
    funext q
    simp only [Function.comp_apply]
    cases hfind : (activesOf s.projects).find?
        (fun x => x.id == q.id && !env.updateFails x.id) <;> rfl
  rw [hcomp]
  have hself : s.projects.find? (fun q => q.id == p.id) = some p := by
    have h := find?_by_id (fun _ => true) s.projects hnd p hp
    simpa using h
  rw [hself]
  have hfp := find?_by_id (fun i => !env.updateFails i) (activesOf s.projects) hnds p hmem
  cases hf : env.updateFails p.id
  · rw [show (fun i => !env.updateFails i) p.id = !env.updateFails p.id from rfl, hf] at hfp
    simp only [Bool.not_false] at hfp
    rw [if_pos (by trivial)] at hfp
    simp [hfp]
  · rw [show (fun i => !env.updateFails i) p.id = !env.updateFails p.id from rfl, hf] at hfp
    simp only [Bool.not_true] at hfp
    rw [if_neg (by simp)] at hfp
    simp [hfp]

/-- C7. During the PATCH loop, each write is attempted independently: for
any pattern of per-project failures, every client-active project whose
own PATCH does not fail ends up stored with its copy incremented by the
floor share, regardless of any other project failing. -/
theorem independent_project_updates (env : Env) (amount : Int) (c : ClientState) (s : Store)
    (hc : env.createFails = false) (hdf : env.distributeFails = false) (h0 : 0 < amount)
    (hsync : c.projects = s.projects) (hnd : (s.projects.map (fun p => p.id)).Nodup)
    (p : FundProject) (hp : p ∈ s.projects) (hpa : p.status.isActive = true)
    (hok : env.updateFails p.id = false) :
    (simulateDonation env amount c s).store.projects.find? (fun q => q.id == p.id)
      = some { p with currentAmount := (p.currentAmount
          + Int.fdiv amount (((activesOf s.projects).map (fun p => p.id)).length : Int)) } := by
  have h := simulateDonation_project_amount env amount c s hc hdf h0 hsync hnd p hp hpa
  rw [hok] at h
  simpa using h

/-- C7, witness: with the PATCH of P2 failing, project P1 is still
incremented from 0 to 3333 by a 10000 donation over three active
projects. -/
theorem independent_project_updates_witness :
    (exEnvFailP2.updateFails ("P2") = true ∧ exEnvFailP2.updateFails ("P1") = false ∧
      (0 : Int) < 10000) ∧
    (simulateDonation exEnvFailP2 10000 exClient exStore).store.projects.find?
        (fun q => q.id == (FundProject.mk ("P1") 1000000 0 ProjStatus.active).id)
      = some (FundProject.mk ("P1") 1000000 3333 ProjStatus.active) := by
  refine ⟨⟨by decide, by decide, by decide⟩, ?_⟩
  have h := independent_project_updates exEnvFailP2 10000 exClient exStore rfl rfl (by decide)
    rfl (by decide) (FundProject.mk ("P1") 1000000 0 ProjStatus.active) (by decide) rfl
    (by decide)
  exact h.trans (by decide)

/-- C6, amended. When the PATCH fails for some of the active projects of
a distribution, the flow still applies every other PATCH, still records
the full amount on the donor account, but ends in the plain success
toast: the failed project ids are only written to the console log, and no
error — in particular nothing named `PartialDistributionError` — reaches
the caller. -/
theorem partial_failure_reports_plain_success (env : Env) (amount : Int) (c : ClientState)
    (s : Store) (hc : env.createFails = false) (hdf : env.distributeFails = false)
    (hdi : env.donorInfoFails = false) (h0 : 0 < amount)
    (hsync : c.projects = s.projects) (hnd : (s.projects.map (fun p => p.id)).Nodup)
    (hactne : activesOf s.projects ≠ [])
    (_hfail : ∃ p ∈ activesOf s.projects, env.updateFails p.id = true) :
    (simulateDonation env amount c s).toast = ToastKind.thankYou ∧
    (simulateDonation env amount c s).failedLog
      = ((activesOf s.projects).filter (fun p => env.updateFails p.id)).map (fun p => p.id) ∧
    donorTotal (simulateDonation env amount c s).store (effectiveUserId c.user.name)
      = donorTotal s (effectiveUserId c.user.name) + amount ∧
    (∀ p ∈ activesOf s.projects, env.updateFails p.id = true →
      (simulateDonation env amount c s).store.projects.find? (fun q => q.id == p.id)
        = some p) ∧
    (∀ p ∈ activesOf s.projects, env.updateFails p.id = false →
      (simulateDonation env amount c s).store.projects.find? (fun q => q.id == p.id)
        = some { p with currentAmount := (p.currentAmount
            + Int.fdiv amount (((activesOf s.projects).map (fun p => p.id)).length : Int)) }) := by
  have hactnec : activesOf c.projects ≠ [] := by
    rw [hsync]
    exact hactne
  have hlen : 0 < ((activesOf c.projects).map (fun p => p.id)).length := by
    simpa [List.length_pos] using hactnec
  refine ⟨?_, ?_, simulateDonation_donorTotal env amount c s hc h0, ?_, ?_⟩
  · rw [simulateDonation_ok_shape env amount c s hc h0, if_pos hlen, if_neg (by simp [hdf]),
      finishDonation_toast_ok _ _ _ _ _ _ hdi]
  · rw [simulateDonation_ok_shape env amount c s hc h0, if_pos hlen, if_neg (by simp [hdf]),
      finishDonation_failedLog, updateActiveProjects_log, hsync]
  · intro p hp hfail
    have h := simulateDonation_project_amount env amount c s hc hdf h0 hsync hnd p
      (List.mem_filter.mp hp).1 (List.mem_filter.mp hp).2
    rw [hfail] at h
    simpa using h
  · intro p hp hok
    have h := simulateDonation_project_amount env amount c s hc hdf h0 hsync hnd p
      (List.mem_filter.mp hp).1 (List.mem_filter.mp hp).2
    rw [hok] at h
    simpa using h

/-- C6, amended witness: the 10000 donation with a failing P2 PATCH shows
the success toast, logs exactly P2, and still credits the donor the full
10000. -/
theorem partial_failure_reports_plain_success_witness :
    ((0 : Int) < 10000 ∧
      (∃ p ∈ activesOf exStore.projects, exEnvFailP2.updateFails p.id = true)) ∧
    (simulateDonation exEnvFailP2 10000 exClient exStore).toast = ToastKind.thankYou ∧
    (simulateDonation exEnvFailP2 10000 exClient exStore).failedLog
      = ((activesOf exStore.projects).filter
          (fun p => exEnvFailP2.updateFails p.id)).map (fun p => p.id) ∧
    donorTotal (simulateDonation exEnvFailP2 10000 exClient exStore).store
        (effectiveUserId exClient.user.name)
      = donorTotal exStore (effectiveUserId exClient.user.name) + 10000 := by
  have h := partial_failure_reports_plain_success exEnvFailP2 10000 exClient exStore rfl rfl
    rfl (by decide) rfl (by decide) (by decide)
    ⟨FundProject.mk ("P2") 1000000 0 ProjStatus.active, by decide, by decide⟩
  exact ⟨⟨by decide, ⟨FundProject.mk ("P2") 1000000 0 ProjStatus.active, by decide, by decide⟩⟩,
    h.1, h.2.1, h.2.2.1⟩

/-- Total collected over a mapped patch of the active projects. -/
lemma sum_map_patch (share : Int) :
    ∀ (l : List FundProject),
      projectsTotal (l.map (fun q => if q.status.isActive = true
          then { q with currentAmount := q.currentAmount + share } else q))
        = projectsTotal l + ((activesOf l).length : Int) * share := by
  intro l
  induction l with
  | nil => simp [projectsTotal, activesOf]
  | cons p rest ih =>
      simp only [projectsTotal, activesOf, List.map_cons, List.sum_cons,
        List.filter_cons] at ih ⊢
      cases hp : p.status.isActive
      · simp only [hp, Bool.false_eq_true, if_false]
        rw [ih]
        ring
      · simp only [hp, if_true, List.length_cons]
        rw [ih]
        push_cast
        ring

/-- C1, amended. With the client and store project lists agreeing and ids
duplicate-free, a clean donation over a non-empty active list gives every
active project — the first included — an increment of exactly
`floor(amount / count)`: the total collected grows by
`amount - amount % count`, so the remainder of the floor division is
dropped, not assigned to the first project. -/
theorem client_allocation_floor (env : Env) (amount : Int) (c : ClientState) (s : Store)
    (hc : env.createFails = false) (hdf : env.distributeFails = false)
    (hup : ∀ pid, env.updateFails pid = false) (h0 : 0 < amount)
    (hsync : c.projects = s.projects) (hnd : (s.projects.map (fun p => p.id)).Nodup)
    (hactne : activesOf s.projects ≠ []) :
    (simulateDonation env amount c s).store.projects
      = s.projects.map (fun q => if q.status.isActive = true
          then { q with currentAmount := (q.currentAmount
            + Int.fdiv amount ((activesOf s.projects).length : Int)) }
          else q) ∧
    projectsTotal (simulateDonation env amount c s).store.projects
      = projectsTotal s.projects
        + (amount - amount % ((activesOf s.projects).length : Int)) := by
  have hnds : ((activesOf s.projects).map (fun p => p.id)).Nodup :=
    nodup_ids_filter s.projects (fun p => p.status.isActive) hnd
  have hactnec : activesOf c.projects ≠ [] := by
    rw [hsync]
    exact hactne
  have hndf : ((activesOf c.projects).map (fun p => p.id)).Nodup := by
    rw [hsync]
    exact hnds
  have h1 : (simulateDonation env amount c s).store.projects
      = s.projects.map (fun q => if q.status.isActive = true
          then { q with currentAmount := (q.currentAmount
            + Int.fdiv amount ((activesOf s.projects).length : Int)) }
          else q) := by
    rw [simulateDonation_store_projects env amount c s hc hdf h0 hactnec hndf, hsync]
    apply List.map_congr_left
    intro q hq
    cases hqa : q.status.isActive
    · rw [if_neg (by simp [hqa])]
      have hnone : (activesOf s.projects).find?
          (fun p => p.id == q.id && !env.updateFails p.id) = none := by
        rw [List.find?_eq_none]
        intro x hx
        simp only [Bool.and_eq_true, beq_iff_eq, not_and]
        intro hxid
        have hxmem : x ∈ s.projects := (List.mem_filter.mp hx).1
        have hxact : x.status.isActive = true := (List.mem_filter.mp hx).2
        have hxq : x = q := List.inj_on_of_nodup_map hnd hxmem hq hxid
        rw [hxq] at hxact
        simp [hqa] at hxact
      rw [hnone]
    · rw [if_pos rfl]
      have hqmem : q ∈ activesOf s.projects := List.mem_filter.mpr ⟨hq, hqa⟩
      have hfq := find?_by_id (fun i => !env.updateFails i) (activesOf s.projects) hnds q hqmem
      simp [hup] at hfq
      simp only [hup, Bool.not_false, Bool.and_true]
      rw [hfq]
      simp [List.length_map]
  refine ⟨h1, ?_⟩
  rw [h1, sum_map_patch]
  have hn : (0 : Int) < ((activesOf s.projects).length : Int) := by
    exact_mod_cast List.length_pos.mpr hactne
  rw [Int.fdiv_eq_ediv amount hn.le]
  have hdm := Int.ediv_add_emod amount ((activesOf s.projects).length : Int)
  linarith

/-- C1, amended witness: the 10000 over three active projects scenario —
each project is incremented by 3333 and the collected total grows by
9999 = 10000 - 10000 % 3. -/
theorem client_allocation_floor_witness :
    ((0 : Int) < 10000 ∧ activesOf exStore.projects ≠ []) ∧
    projectsTotal (simulateDonation honestEnv 10000 exClient exStore).store.projects
      = projectsTotal exStore.projects
        + (10000 - 10000 % ((activesOf exStore.projects).length : Int)) :=
  ⟨⟨by decide, by decide⟩,
    (client_allocation_floor honestEnv 10000 exClient exStore rfl rfl (fun _ => rfl)
      (by decide) rfl (by decide) (by decide)).2⟩

/-- C2. With the create call reachable (no network failure) and every
amount positive, a sequence of donation flows accumulates the donor
stored total by exactly the sum of the donated amounts, and reading the
donor account afterwards returns that cumulative total. -/
theorem donor_total_accumulates (env : Env) (amounts : List Int) (c : ClientState) (s : Store)
    (hc : env.createFails = false) (hpos : ∀ a ∈ amounts, 0 < a) :
    donorTotal (runDonations env amounts c s).2 (effectiveUserId c.user.name)
        = donorTotal s (effectiveUserId c.user.name) + amounts.sum ∧
    (getDonorAccount (runDonations env amounts c s).2 (effectiveUserId c.user.name)).totalDonated
        = some (donorTotal s (effectiveUserId c.user.name) + amounts.sum) := by
  have key : ∀ (amounts : List Int) (c : ClientState) (s : Store), (∀ a ∈ amounts, 0 < a) →
      donorTotal (runDonations env amounts c s).2 (effectiveUserId c.user.name)
        = donorTotal s (effectiveUserId c.user.name) + amounts.sum := by
    intro amounts
    induction amounts with
    | nil =>
        intro c s _
        simp [runDonations]
    | cons a rest ih =>
        intro c s hpos
        have ha : 0 < a := hpos a (List.mem_cons_self a rest)
        have hrest : ∀ x ∈ rest, 0 < x := fun x hx => hpos x (List.mem_cons_of_mem a hx)
        have hname := simulateDonation_name env a c s
        rw [show runDonations env (a :: rest) c s
            = runDonations env rest (simulateDonation env a c s).client
                (simulateDonation env a c s).store from rfl]
        calc donorTotal (runDonations env rest (simulateDonation env a c s).client
                (simulateDonation env a c s).store).2 (effectiveUserId c.user.name)
            = donorTotal (runDonations env rest (simulateDonation env a c s).client
                (simulateDonation env a c s).store).2
                (effectiveUserId (simulateDonation env a c s).client.user.name) := by
              rw [hname]
          _ = donorTotal (simulateDonation env a c s).store
                (effectiveUserId (simulateDonation env a c s).client.user.name) + rest.sum :=
              ih _ _ hrest
          _ = donorTotal (simulateDonation env a c s).store
                (effectiveUserId c.user.name) + rest.sum := by
              rw [hname]
          _ = (donorTotal s (effectiveUserId c.user.name) + a) + rest.sum := by
              rw [simulateDonation_donorTotal env a c s hc ha]
          _ = donorTotal s (effectiveUserId c.user.name) + (a :: rest).sum := by
              rw [List.sum_cons]
              ring
  refine ⟨key amounts c s hpos, ?_⟩
  simp [getDonorAccount, key amounts c s hpos]

/-- C2, witness: donor `guest` donating 5000 twice ends with a stored and
readable total of 10000. -/
theorem donor_total_accumulates_witness :
    honestEnv.createFails = false ∧ (∀ a ∈ [(5000 : Int), 5000], 0 < a) ∧
    (getDonorAccount (runDonations honestEnv [5000, 5000] exClient exStore).2
        (effectiveUserId exClient.user.name)).totalDonated = some 10000 := by
  refine ⟨rfl, by decide, ?_⟩
  have h := (donor_total_accumulates honestEnv [5000, 5000] exClient exStore rfl (by decide)).2
  rw [h]
  decide

/-- C3, amended. Provided the donation is distributed over a non-empty
client active-project list (and the invariant held beforehand), a clean
donation flow preserves the equality between the donor stored donation
total and the sum of the donor per-project contribution values; a
donation made while zero projects are active breaks it (see the
counterexample), since the full amount is recorded with no contribution. -/
theorem contribution_invariant_preserved (amount : Int) (c : ClientState) (s : Store)
    (h0 : 0 < amount) (hact : activesOf c.projects ≠ [])
    (hinv : donorTotal s (effectiveUserId c.user.name)
      = contribSum s (effectiveUserId c.user.name)) :
    donorTotal (simulateDonation honestEnv amount c s).store (effectiveUserId c.user.name)
      = contribSum (simulateDonation honestEnv amount c s).store
          (effectiveUserId c.user.name) := by
  rw [simulateDonation_donorTotal honestEnv amount c s rfl h0,
    simulateDonation_contribSum honestEnv amount c s rfl rfl h0 hact, hinv]

/-- C3, amended witness: the invariant is preserved by a 10000 donation
over the three active projects. -/
theorem contribution_invariant_preserved_witness :
    ((0 : Int) < 10000 ∧ activesOf exClient.projects ≠ [] ∧
      donorTotal exStore (effectiveUserId exClient.user.name)
        = contribSum exStore (effectiveUserId exClient.user.name)) ∧
    donorTotal (simulateDonation honestEnv 10000 exClient exStore).store
        (effectiveUserId exClient.user.name)
      = contribSum (simulateDonation honestEnv 10000 exClient exStore).store
          (effectiveUserId exClient.user.name) :=
  ⟨⟨by decide, by decide, by decide⟩,
    contribution_invariant_preserved 10000 exClient exStore (by decide) (by decide) (by decide)⟩

/-- C4. When the client active-project list is empty, the donation is
still recorded — the store gains the donation record and the donor total
grows by the full amount — while the stored project list (hence every
`currentAmount`) is exactly unchanged, and the engine allocation over the
empty list is empty. -/
theorem zero_actives_donation_recorded (env : Env) (amount : Int) (c : ClientState) (s : Store)
    (hc : env.createFails = false) (h0 : 0 < amount) (hact : activesOf c.projects = []) :
    (simulateDonation env amount c s).store.donations
        = s.donations ++ [⟨effectiveUserId c.user.name, amount, "UZS", "completed"⟩] ∧
    donorTotal (simulateDonation env amount c s).store (effectiveUserId c.user.name)
        = donorTotal s (effectiveUserId c.user.name) + amount ∧
    (simulateDonation env amount c s).store.projects = s.projects ∧
    distributionEngine amount [] = [] := by
  refine ⟨simulateDonation_store_donations env amount c s hc h0,
    simulateDonation_donorTotal env amount c s hc h0, ?_, rfl⟩
  rw [simulateDonation_ok_shape env amount c s hc h0, if_neg (by simp [hact]),
    finishDonation_store]

/-- C4, witness: donating 5000 with no active project records the
donation and leaves the single (non-active) project untouched. -/
theorem zero_actives_donation_recorded_witness :
    (honestEnv.createFails = false ∧ (0 : Int) < 5000 ∧
      activesOf exClientNoActive.projects = []) ∧
    donorTotal (simulateDonation honestEnv 5000 exClientNoActive exStoreNoActive).store
        (effectiveUserId exClientNoActive.user.name)
      = donorTotal exStoreNoActive (effectiveUserId exClientNoActive.user.name) + 5000 ∧
    (simulateDonation honestEnv 5000 exClientNoActive exStoreNoActive).store.projects
      = exStoreNoActive.projects :=
  ⟨⟨rfl, by decide, by decide⟩,
    (zero_actives_donation_recorded honestEnv 5000 exClientNoActive exStoreNoActive rfl
      (by decide) (by decide)).2.1,
    (zero_actives_donation_recorded honestEnv 5000 exClientNoActive exStoreNoActive rfl
      (by decide) (by decide)).2.2.1⟩

/-- C9. If the create call goes through but a later non-guarded step
throws — the distribute call (with a non-empty active list) or the
donor-info read — the catch branch leaves the whole client state (user
fields and both localStorage keys) untouched and shows the generic
failure toast, even though the donation record has already been created
in the store. -/
theorem late_failure_leaves_client_untouched (env : Env) (amount : Int) (c : ClientState)
    (s : Store) (hc : env.createFails = false) (h0 : 0 < amount)
    (hthrow : (activesOf c.projects ≠ [] ∧ env.distributeFails = true)
      ∨ env.donorInfoFails = true) :
    (simulateDonation env amount c s).client = c ∧
    (simulateDonation env amount c s).toast = ToastKind.donationFailed ∧
    (simulateDonation env amount c s).store.donations
      = s.donations ++ [⟨effectiveUserId c.user.name, amount, "UZS", "completed"⟩] := by
  have hco : (simulateDonation env amount c s).client = c ∧
      (simulateDonation env amount c s).toast = ToastKind.donationFailed := by
    rw [simulateDonation_ok_shape env amount c s hc h0]
    by_cases hlen : 0 < ((activesOf c.projects).map (fun p => p.id)).length
    · rw [if_pos hlen]
      by_cases hd : env.distributeFails = true
      · rw [if_pos hd]
        exact ⟨rfl, rfl⟩
      · rw [if_neg hd]
        rcases hthrow with ⟨_, hd2⟩ | hdi
        · exact absurd hd2 hd
        · unfold finishDonation
          rw [if_pos hdi]
          exact ⟨rfl, rfl⟩
    · rw [if_neg hlen]
      rcases hthrow with ⟨hne, _⟩ | hdi
      · exact absurd (by simpa [List.length_pos] using hne) hlen
      · unfold finishDonation
        rw [if_pos hdi]
        exact ⟨rfl, rfl⟩
  exact ⟨hco.1, hco.2, simulateDonation_store_donations env amount c s hc h0⟩

/-- C9, witness: with the donor-info read failing after a successful
create, the client state is untouched and the generic failure toast is
shown. -/
theorem late_failure_leaves_client_untouched_witness :
    (exEnvDonorInfoFails.createFails = false ∧ (0 : Int) < 5000 ∧
      exEnvDonorInfoFails.donorInfoFails = true) ∧
    (simulateDonation exEnvDonorInfoFails 5000 exClient exStore).client = exClient ∧
    (simulateDonation exEnvDonorInfoFails 5000 exClient exStore).toast
      = ToastKind.donationFailed :=
  ⟨⟨rfl, by decide, rfl⟩,
    (late_failure_leaves_client_untouched exEnvDonorInfoFails 5000 exClient exStore rfl
      (by decide) (Or.inr rfl)).1,
    (late_failure_leaves_client_untouched exEnvDonorInfoFails 5000 exClient exStore rfl
      (by decide) (Or.inr rfl)).2.1⟩

end Musaffo
